import Mathlib

/-!
Verification of the record-store core of the `web_template` repository.

The repository has two source files implementing the same pattern:
`src/code_template.rs` (entity type `Task`, plaintext password comparison at
login) and `src/main.rs` (entity type `Service`, bcrypt hashing at register
and bcrypt verification at login).  The shared core is a `Database` struct
holding two `HashMap<u64, _>` tables (entities and users), CRUD methods on
them, JSON save/load via serde, and register/login handlers.

Embedding choices, from the source:
- `HashMap<u64, V>` is modelled as an association list `List (Nat × V)` in
  iteration order; `HashMap::insert` replaces the entry of an existing key in
  place or appends a fresh key, `HashMap::remove` deletes the entry of the
  key, `values().find(...)` scans in iteration order.  Reachable map states
  have pairwise distinct keys; theorems that need this take it as the
  `Table.keysNodup` hypothesis.
- File input and output is modelled at the serde document level: save
  produces the serialized JSON document (a `Json` value with the exact
  structure serde_json emits, including string-encoded `u64` map keys), load
  parses such a document back, returning `none` where serde_json returns an
  error.
- The bcrypt functions live in an external crate, so `hash` and `verify` are
  parameters of the handler models; `.expect(...)` on their results is
  modelled as the error case of `Except`, marking a request-handler panic.
-/

namespace WebTemplate

/-- Task record from `code_template.rs`: `{ id: u64, name: String, completed: bool }`. -/
structure Task where
  id : Nat
  name : String
  completed : Bool
deriving DecidableEq, Repr

/-- User record, identical in both files: `{ id: u64, username: String, password: String }`. -/
structure User where
  id : Nat
  username : String
  password : String
deriving DecidableEq, Repr

/-- Model of `HashMap<u64, V>` contents in iteration order. -/
abbrev Table (V : Type) := List (Nat × V)

/-- Keys of a table, in iteration order. -/
def Table.keys {V : Type} (t : Table V) : List Nat :=
  t.map Prod.fst

/-- Representation invariant of every reachable `HashMap` state: keys are pairwise distinct. -/
def Table.keysNodup {V : Type} (t : Table V) : Prop :=
  (t.map Prod.fst).Nodup

instance {V : Type} (t : Table V) : Decidable (Table.keysNodup t) :=
  List.nodupDecidable (t.map Prod.fst)

/-- Model of `HashMap::get`: the value stored at key `k`, scanning in iteration order. -/
def Table.lookup {V : Type} (t : Table V) (k : Nat) : Option V :=
  match t with
  | [] => none
  | (k1, v) :: rest => if k1 = k then some v else Table.lookup rest k

/-- Model of `HashMap::insert`: replace the entry of an existing key in place,
otherwise append the new entry. -/
def Table.insertKV {V : Type} (t : Table V) (k : Nat) (v : V) : Table V :=
  match t with
  | [] => [(k, v)]
  | (k1, v1) :: rest =>
    if k1 = k then (k, v) :: rest else (k1, v1) :: Table.insertKV rest k v

/-- Model of `HashMap::remove`: delete the entry of key `k`. -/
def Table.eraseKey {V : Type} (t : Table V) (k : Nat) : Table V :=
  match t with
  | [] => []
  | (k1, v1) :: rest =>
    if k1 = k then rest else (k1, v1) :: Table.eraseKey rest k

/-- Model of `values().find(p)`: first value satisfying `p` in iteration order. -/
def Table.findValue {V : Type} (t : Table V) (p : V → Bool) : Option V :=
  match t with
  | [] => none
  | (_, v) :: rest => if p v then some v else Table.findValue rest p

/-- The `Database` struct of `code_template.rs`: a task table and a user table. -/
structure Database where
  tasks : Table Task
  users : Table User
deriving DecidableEq, Repr

/-- Source `Database::new()`: both tables empty. -/
def Database.new : Database :=
  { tasks := [], users := [] }

/-- Source `Database::insert`: `self.tasks.insert(task.id, task)`. -/
def Database.insert (db : Database) (task : Task) : Database :=
  { db with tasks := db.tasks.insertKV task.id task }

/-- Source `Database::get`: `self.tasks.get(id)`. -/
def Database.get (db : Database) (id : Nat) : Option Task :=
  db.tasks.lookup id

/-- Source `Database::get_all`: `self.tasks.values().collect()`. -/
def Database.get_all (db : Database) : List Task :=
  db.tasks.map Prod.snd

/-- Source `Database::delete`: `self.tasks.remove(id)`. -/
def Database.delete (db : Database) (id : Nat) : Database :=
  { db with tasks := db.tasks.eraseKey id }

/-- Source `Database::update`: `self.tasks.insert(task.id, task)`, the same body as `insert`. -/
def Database.update (db : Database) (task : Task) : Database :=
  { db with tasks := db.tasks.insertKV task.id task }

/-- Source `Database::insert_user`: `self.users.insert(user.id, user)`. -/
def Database.insert_user (db : Database) (user : User) : Database :=
  { db with users := db.users.insertKV user.id user }

/-- Source `Database::get_user_by_name`: `self.users.values().find(|u| u.username == username)`. -/
def Database.get_user_by_name (db : Database) (username : String) : Option User :=
  db.users.findValue (fun u => u.username == username)

/-- HTTP responses the register and login handlers build (status plus body). -/
inductive HttpResponse where
  | ok (body : String)
  | badRequest (body : String)
  | unauthorized (body : String)
deriving DecidableEq, Repr

/-- Store effect of the `register` handler of `code_template.rs`:
`db.insert_user(user.into_inner())` stores the request record unchanged. -/
def register_template (db : Database) (user : User) : Database :=
  db.insert_user user

/-- Store effect of the `register` handler of `main.rs`: hash the request
password with `bcrypt::hash(_, DEFAULT_COST)` (a parameter here, since bcrypt
is an external crate; its salt and cost are absorbed into the parameter),
build a new user from the request id and username plus the hash, and insert
it.  `Except.error` models the `.expect("Failed to hash password")` panic. -/
def register_hardened (bhash : String → Except String String)
    (db : Database) (user : User) : Except String Database :=
  match bhash user.password with
  | Except.ok hashed_password =>
    Except.ok (db.insert_user
      { id := user.id, username := user.username, password := hashed_password })
  | Except.error _ => Except.error "Failed to hash password"

/-- The `login` handler of `code_template.rs`: look the username up; if found,
compare stored and supplied passwords with `==`; otherwise reject 401. -/
def login_template (db : Database) (user : User) : HttpResponse :=
  match db.get_user_by_name user.username with
  | some stored_user =>
    if stored_user.password == user.password then
      HttpResponse.ok "Login successful!"
    else
      HttpResponse.badRequest "Invalid username or password"
  | none => HttpResponse.unauthorized ""

/-- The `login` handler of `main.rs`: look the username up; if found, call
`bcrypt::verify(supplied, stored)` (a parameter, external crate) and branch on
the boolean; the `.expect("Failed to verify password")` on its result is
modelled by propagating `Except.error`, marking a handler panic. -/
def login_hardened (bverify : String → String → Except String Bool)
    (db : Database) (user : User) : Except String HttpResponse :=
  match db.get_user_by_name user.username with
  | some stored_user =>
    match bverify user.password stored_user.password with
    | Except.ok true => Except.ok (HttpResponse.ok "Login successful")
    | Except.ok false =>
      Except.ok (HttpResponse.badRequest "Invalid username and/or password")
    | Except.error _ => Except.error "Failed to verify password"
  | none => Except.ok (HttpResponse.unauthorized "Invalid username or password")

/-- One mutating request handler of `code_template.rs`, at the store level. -/
inductive Op where
  | createTask (t : Task)
  | updateTask (t : Task)
  | deleteTask (id : Nat)
  | registerUser (u : User)
deriving DecidableEq, Repr

/-- Store effect of each mutating handler (`create_task`, `update_task`,
`delete_task`, `register`); the hardened `register` also factors through
`insert_user` on the user it builds, so `registerUser` covers both files. -/
def applyOp (db : Database) : Op → Database
  | Op.createTask t => db.insert t
  | Op.updateTask t => db.update t
  | Op.deleteTask i => db.delete i
  | Op.registerUser u => db.insert_user u

-- Serialization layer: serde_json modelled at the document level.

/-- Decimal digit to its character, as serde_json prints `u64` map keys. -/
def digitChar (d : Nat) : Char :=
  Char.ofNat (48 + d)

/-- Character back to a decimal digit, as serde_json parses `u64` map keys. -/
def charDigit (c : Char) : Option Nat :=
  if 48 ≤ c.toNat ∧ c.toNat ≤ 57 then some (c.toNat - 48) else none

/-- Little-endian decimal digits of `n`, with explicit fuel so reduction is structural. -/
def toDigitsAux : Nat → Nat → List Nat
  | 0, _ => []
  | fuel + 1, n => if n = 0 then [] else n % 10 :: toDigitsAux fuel (n / 10)

/-- Little-endian decimal digits of `n` (empty for 0). -/
def natDigits (n : Nat) : List Nat :=
  toDigitsAux n n

/-- Value of a little-endian decimal digit list. -/
def ofDigitsLE : List Nat → Nat
  | [] => 0
  | d :: ds => d + 10 * ofDigitsLE ds

/-- String serde_json writes for the `u64` map key `n` (most significant digit first). -/
def encodeKey (n : Nat) : String :=
  if n = 0 then "0" else String.mk (((natDigits n).map digitChar).reverse)

/-- Parse every character of a key string as a decimal digit. -/
def decodeDigitList : List Char → Option (List Nat)
  | [] => some []
  | c :: cs =>
    match charDigit c, decodeDigitList cs with
    | some d, some ds => some (d :: ds)
    | _, _ => none

/-- Model of serde_json parsing a map key string back to `u64`. -/
def decodeKey (s : String) : Option Nat :=
  match decodeDigitList s.data with
  | some ds => if ds = [] then none else some (ofDigitsLE ds.reverse)
  | none => none

/-- JSON documents, at the level serde_json hands to the application. -/
inductive Json where
  | str : String → Json
  | num : Nat → Json
  | bool : Bool → Json
  | obj : List (String × Json) → Json

/-- Serde derived serialization of `Task`, fields in declaration order. -/
def taskToJson (t : Task) : Json :=
  Json.obj [("id", Json.num t.id), ("name", Json.str t.name),
    ("completed", Json.bool t.completed)]

/-- Serde derived serialization of `User`, fields in declaration order. -/
def userToJson (u : User) : Json :=
  Json.obj [("id", Json.num u.id), ("username", Json.str u.username),
    ("password", Json.str u.password)]

/-- Field access in a JSON object, first binding of the name. -/
def jsonLookup (fields : List (String × Json)) (key : String) : Option Json :=
  match fields with
  | [] => none
  | (k, v) :: rest => if k = key then some v else jsonLookup rest key

/-- Serde derived deserialization of `Task`: all three fields must be present
with the right shapes (extra fields are ignored, as serde does by default). -/
def taskFromJson (j : Json) : Option Task :=
  match j with
  | Json.obj fields =>
    match jsonLookup fields "id", jsonLookup fields "name",
        jsonLookup fields "completed" with
    | some (Json.num i), some (Json.str s), some (Json.bool b) =>
      some { id := i, name := s, completed := b }
    | _, _, _ => none
  | _ => none

/-- Serde derived deserialization of `User`. -/
def userFromJson (j : Json) : Option User :=
  match j with
  | Json.obj fields =>
    match jsonLookup fields "id", jsonLookup fields "username",
        jsonLookup fields "password" with
    | some (Json.num i), some (Json.str s), some (Json.str p) =>
      some { id := i, username := s, password := p }
    | _, _, _ => none
  | _ => none

/-- Serde serialization of `HashMap<u64, V>`: a JSON object whose keys are the
decimal strings of the `u64` keys, in iteration order. -/
def tableToJson {V : Type} (enc : V → Json) (t : Table V) : Json :=
  Json.obj (t.map fun e => (encodeKey e.1, enc e.2))

/-- Serde deserialization of a map: parse each binding and insert it into the
map being built, in document order. -/
def tableFromEntries {V : Type} (dec : Json → Option V) :
    List (String × Json) → Table V → Option (Table V)
  | [], acc => some acc
  | e :: rest, acc =>
    match decodeKey e.1, dec e.2 with
    | some k, some v => tableFromEntries dec rest (acc.insertKV k v)
    | _, _ => none

/-- Serde deserialization of `HashMap<u64, V>` from a JSON document. -/
def tableFromJson {V : Type} (dec : Json → Option V) (j : Json) : Option (Table V) :=
  match j with
  | Json.obj entries => tableFromEntries dec entries []
  | _ => none

/-- Source `Database::save_to_file`, at the document level: serde_json
serialization of the struct, fields `tasks` then `users`.  (The write of the
rendered text to `database.json` is file system territory outside the model.) -/
def Database.save_to_file (db : Database) : Json :=
  Json.obj [("tasks", tableToJson taskToJson db.tasks),
    ("users", tableToJson userToJson db.users)]

/-- Source `Database::load_from_file`, at the document level: serde_json
deserialization of the struct; `none` is the `Err` of `serde_json::from_str`. -/
def Database.load_from_file (j : Json) : Option Database :=
  match j with
  | Json.obj fields =>
    match jsonLookup fields "tasks", jsonLookup fields "users" with
    | some jt, some ju =>
      match tableFromJson taskFromJson jt, tableFromJson userFromJson ju with
      | some ts, some us => some { tasks := ts, users := us }
      | _, _ => none
    | _, _ => none
  | _ => none

/-- Startup logic of `main`: `match Database::load_from_file() { Ok(db) => db,
Err(_) => Database::new() }`.  A missing `database.json` is `none` file
content; a present file whose document fails to deserialize is the inner
`none`; both are `Err(_)` in the source. -/
def mainStartupDb (fileContent : Option Json) : Database :=
  match fileContent with
  | some j =>
    match Database.load_from_file j with
    | some db => db
    | none => Database.new
  | none => Database.new

-- Basic table lemmas

theorem Table.lookup_insertKV {V : Type} (t : Table V) (k : Nat) (v : V) (i : Nat) :
    (t.insertKV k v).lookup i = if k = i then some v else t.lookup i := by
  induction t with
  | nil =>
    by_cases h : k = i <;> simp [Table.insertKV, Table.lookup, h]
  | cons hd rest ih =>
    obtain ⟨k1, v1⟩ := hd
    by_cases h1 : k1 = k
    · subst h1
      by_cases h : k1 = i <;> simp [Table.insertKV, Table.lookup, h]
    · by_cases h : k1 = i
      · subst h
        have hk : ¬ k = k1 := fun hkk => h1 hkk.symm
        simp [Table.insertKV, Table.lookup, h1, hk]
      · simp [Table.insertKV, Table.lookup, h1, h, ih]

theorem Table.lookup_eq_none_of_not_mem_keys {V : Type} (t : Table V) (k : Nat)
    (h : k ∉ t.keys) : t.lookup k = none := by
  induction t with
  | nil => rfl
  | cons hd rest ih =>
    obtain ⟨k1, v1⟩ := hd
    simp only [Table.keys, List.map_cons, List.mem_cons] at h
    push_neg at h
    have h1 : ¬ k1 = k := fun he => h.1 he.symm
    simp [Table.lookup, h1, ih (by simpa [Table.keys] using h.2)]

theorem Table.not_mem_keys_of_lookup_eq_none {V : Type} (t : Table V) (k : Nat)
    (h : t.lookup k = none) : k ∉ t.keys := by
  induction t with
  | nil => simp [Table.keys]
  | cons hd rest ih =>
    obtain ⟨k1, v1⟩ := hd
    by_cases h1 : k1 = k
    · simp [Table.lookup, h1] at h
    · simp only [Table.lookup, if_neg h1] at h
      simp [Table.keys, List.mem_cons] at ih ⊢
      exact ⟨fun he => h1 he.symm, by simpa [Table.keys] using ih h⟩

theorem Table.lookup_eraseKey_self {V : Type} (t : Table V) (k : Nat)
    (hnd : t.keysNodup) : (t.eraseKey k).lookup k = none := by
  induction t with
  | nil => rfl
  | cons hd rest ih =>
    obtain ⟨k1, v1⟩ := hd
    simp only [Table.keysNodup, List.map_cons, List.nodup_cons] at hnd
    by_cases h1 : k1 = k
    · subst h1
      simp only [Table.eraseKey, if_pos rfl]
      exact Table.lookup_eq_none_of_not_mem_keys rest k1 (by simpa [Table.keys] using hnd.1)
    · simp [Table.eraseKey, Table.lookup, h1, ih hnd.2]

theorem Table.eraseKey_of_lookup_eq_none {V : Type} (t : Table V) (k : Nat)
    (h : t.lookup k = none) : t.eraseKey k = t := by
  induction t with
  | nil => rfl
  | cons hd rest ih =>
    obtain ⟨k1, v1⟩ := hd
    by_cases h1 : k1 = k
    · simp [Table.lookup, h1] at h
    · simp only [Table.lookup, if_neg h1] at h
      simp [Table.eraseKey, h1, ih h]

theorem Table.insertKV_of_not_mem_keys {V : Type} (t : Table V) (k : Nat) (v : V)
    (h : k ∉ t.keys) : t.insertKV k v = t ++ [(k, v)] := by
  induction t with
  | nil => rfl
  | cons hd rest ih =>
    obtain ⟨k1, v1⟩ := hd
    simp only [Table.keys, List.map_cons, List.mem_cons] at h
    push_neg at h
    have h1 : ¬ k1 = k := fun he => h.1 he.symm
    simp [Table.insertKV, h1, ih (by simpa [Table.keys] using h.2)]

theorem Table.keys_append {V : Type} (a b : Table V) :
    Table.keys (a ++ b) = Table.keys a ++ Table.keys b :=
  List.map_append Prod.fst a b

-- Roundtrip of the decimal key encoding

theorem toDigitsAux_lt_ten (fuel n d : Nat) (h : d ∈ toDigitsAux fuel n) : d < 10 := by
  induction fuel generalizing n with
  | zero => simp [toDigitsAux] at h
  | succ fuel ih =>
    by_cases h0 : n = 0
    · simp [toDigitsAux, h0] at h
    · simp only [toDigitsAux, if_neg h0, List.mem_cons] at h
      rcases h with h | h
      · omega
      · exact ih (n / 10) h

theorem ofDigitsLE_toDigitsAux (fuel : Nat) : ∀ n : Nat, n ≤ fuel →
    ofDigitsLE (toDigitsAux fuel n) = n := by
  induction fuel with
  | zero =>
    intro n hn
    interval_cases n
    rfl
  | succ fuel ih =>
    intro n hn
    by_cases h0 : n = 0
    · simp [toDigitsAux, h0, ofDigitsLE]
    · have hdiv : n / 10 ≤ fuel := by
        have : n / 10 < n := Nat.div_lt_self (Nat.pos_of_ne_zero h0) (by norm_num)
        omega
      simp only [toDigitsAux, if_neg h0, ofDigitsLE, ih (n / 10) hdiv]
      omega

theorem charDigit_digitChar (d : Nat) (h : d < 10) : charDigit (digitChar d) = some d := by
  interval_cases d <;> rfl

theorem decodeDigitList_map (ds : List Nat) (h : ∀ d ∈ ds, d < 10) :
    decodeDigitList (ds.map digitChar) = some ds := by
  induction ds with
  | nil => rfl
  | cons d rest ih =>
    have hd : d < 10 := h d (List.mem_cons_self d rest)
    have hrest : decodeDigitList (rest.map digitChar) = some rest :=
      ih fun x hx => h x (List.mem_cons_of_mem d hx)
    simp [decodeDigitList, charDigit_digitChar d hd, hrest]

theorem natDigits_ne_nil (n : Nat) (h : 0 < n) : natDigits n ≠ [] := by
  obtain ⟨m, rfl⟩ := Nat.exists_eq_succ_of_ne_zero (Nat.pos_iff_ne_zero.mp h)
  simp [natDigits, toDigitsAux]

theorem decodeKey_encodeKey (n : Nat) : decodeKey (encodeKey n) = some n := by
  by_cases h0 : n = 0
  · subst h0
    rfl
  · have hpos : 0 < n := Nat.pos_of_ne_zero h0
    have hlt : ∀ d ∈ (natDigits n).reverse, d < 10 := by
      intro d hd
      exact toDigitsAux_lt_ten n n d (List.mem_reverse.mp hd)
    have hdata : (encodeKey n).data = ((natDigits n).reverse).map digitChar := by
      simp [encodeKey, h0, List.map_reverse]
    have hne : (natDigits n).reverse ≠ [] := by
      simp [natDigits_ne_nil n hpos]
    simp only [decodeKey, hdata, decodeDigitList_map _ hlt, if_neg hne,
      List.reverse_reverse]
    simp [natDigits, ofDigitsLE_toDigitsAux n n (le_refl n)]

-- Roundtrip of the table and database serialization

theorem taskFromJson_taskToJson (t : Task) : taskFromJson (taskToJson t) = some t := by
  rfl

theorem userFromJson_userToJson (u : User) : userFromJson (userToJson u) = some u := by
  rfl

theorem tableFromEntries_map {V : Type} (dec : Json → Option V) (enc : V → Json)
    (hdec : ∀ v, dec (enc v) = some v) :
    ∀ t acc : Table V, Table.keysNodup t →
      (∀ k, k ∈ Table.keys t → k ∉ Table.keys acc) →
      tableFromEntries dec (t.map fun e => (encodeKey e.1, enc e.2)) acc =
        some (acc ++ t) := by
  intro t
  induction t with
  | nil =>
    intro acc _ _
    simp [tableFromEntries]
  | cons hd rest ih =>
    intro acc hnd hdisj
    obtain ⟨k, v⟩ := hd
    simp only [Table.keysNodup, List.map_cons, List.nodup_cons] at hnd
    have hkacc : k ∉ Table.keys acc :=
      hdisj k (by simp [Table.keys])
    have hins : acc.insertKV k v = acc ++ [(k, v)] :=
      Table.insertKV_of_not_mem_keys acc k v hkacc
    have hdisj2 : ∀ x, x ∈ Table.keys rest → x ∉ Table.keys (acc ++ [(k, v)]) := by
      intro x hx
      rw [Table.keys_append]
      simp only [List.mem_append]
      push_neg
      constructor
      · exact hdisj x (by simp [Table.keys] at hx ⊢; exact Or.inr hx)
      · simp only [Table.keys, List.map_cons, List.map_nil, List.mem_singleton]
        intro he
        subst he
        exact hnd.1 (by simpa [Table.keys] using hx)
    have := ih (acc ++ [(k, v)]) hnd.2 hdisj2
    simp only [List.map_cons, tableFromEntries, decodeKey_encodeKey, hdec, hins, this]
    simp

theorem load_from_file_save_to_file (db : Database)
    (h1 : db.tasks.keysNodup) (h2 : db.users.keysNodup) :
    Database.load_from_file (Database.save_to_file db) = some db := by
  have ht : tableFromJson taskFromJson (tableToJson taskToJson db.tasks) =
      some db.tasks := by
    have := tableFromEntries_map taskFromJson taskToJson taskFromJson_taskToJson
      db.tasks [] h1 (by simp [Table.keys])
    simpa [tableFromJson, tableToJson] using this
  have hu : tableFromJson userFromJson (tableToJson userToJson db.users) =
      some db.users := by
    have := tableFromEntries_map userFromJson userToJson userFromJson_userToJson
      db.users [] h2 (by simp [Table.keys])
    simpa [tableFromJson, tableToJson] using this
  simp [Database.save_to_file, Database.load_from_file, jsonLookup, ht, hu]

-- Claims

/-- C1: loading the document produced by `save_to_file` on any store state
yields a store observationally equal to it: the same id-to-value associations
in the task table and in the user table.  The hypotheses are the `HashMap`
representation invariant (distinct keys), which every reachable state has. -/
theorem C1_save_load_roundtrip (db : Database)
    (h1 : db.tasks.keysNodup) (h2 : db.users.keysNodup) :
    ∃ db2, Database.load_from_file (Database.save_to_file db) = some db2 ∧
      (∀ i, db2.tasks.lookup i = db.tasks.lookup i) ∧
      (∀ i, db2.users.lookup i = db.users.lookup i) :=
  ⟨db, load_from_file_save_to_file db h1 h2, fun _ => rfl, fun _ => rfl⟩

/-- Witness for C1 on a concrete two-task, one-user store. -/
theorem C1_save_load_roundtrip_witness :
    ∃ db2, Database.load_from_file (Database.save_to_file
        ⟨[(1, ⟨1, "write spec", true⟩), (2, ⟨2, "check code", false⟩)],
          [(7, ⟨7, "alice", "hash7"⟩)]⟩) = some db2 ∧
      (∀ i, db2.tasks.lookup i =
        (⟨[(1, ⟨1, "write spec", true⟩), (2, ⟨2, "check code", false⟩)],
          [(7, ⟨7, "alice", "hash7"⟩)]⟩ : Database).tasks.lookup i) ∧
      (∀ i, db2.users.lookup i =
        (⟨[(1, ⟨1, "write spec", true⟩), (2, ⟨2, "check code", false⟩)],
          [(7, ⟨7, "alice", "hash7"⟩)]⟩ : Database).users.lookup i) :=
  C1_save_load_roundtrip _ (by decide) (by decide)

/-- C2 counterexample: the `register` handler of `code_template.rs` stores the
request record unchanged, so after registering the password "secret" the
stored password field is the plaintext "secret" itself, not a hash of it,
refuting the claim that every cited register operation stores a hash and
never the plaintext. -/
theorem C2_counterexample :
    ((register_template Database.new
        { id := 1, username := "alice", password := "secret" }).users.lookup 1).map
      User.password = some "secret" := by
  decide

/-- C2 amended: the `register` handler of `main.rs` stores a user built from
the request id and username whose password field is the bcrypt hash of the
request password (so, whenever the hash differs from the plaintext, the
stored field is not the plaintext); the `register` handler of
`code_template.rs` instead stores the request record unchanged, plaintext
password included. -/
theorem C2_amended_register_stores_hash (bhash : String → Except String String)
    (db : Database) (req : User) (hp : String)
    (hh : bhash req.password = Except.ok hp) :
    (∃ db2, register_hardened bhash db req = Except.ok db2 ∧
      db2.users.lookup req.id =
        some { id := req.id, username := req.username, password := hp } ∧
      (hp ≠ req.password →
        (db2.users.lookup req.id).map User.password ≠ some req.password)) ∧
    (register_template db req).users.lookup req.id = some req := by
  constructor
  · refine ⟨db.insert_user { id := req.id, username := req.username, password := hp },
      ?_, ?_, ?_⟩
    · simp [register_hardened, hh]
    · simp [Database.insert_user, Table.lookup_insertKV]
    · intro hne
      simp [Database.insert_user, Table.lookup_insertKV]
      exact hne
  · simp [register_template, Database.insert_user, Table.lookup_insertKV]

/-- Witness for C2 amended, with a concrete hashing function and request. -/
theorem C2_amended_register_stores_hash_witness :
    (∃ db2, register_hardened (fun s => Except.ok (String.append "$2b$12$x" s))
        Database.new ⟨1, "alice", "secret"⟩ = Except.ok db2 ∧
      db2.users.lookup 1 = some ⟨1, "alice", String.append "$2b$12$x" "secret"⟩ ∧
      (String.append "$2b$12$x" "secret" ≠ "secret" →
        (db2.users.lookup 1).map User.password ≠ some "secret")) ∧
    (register_template Database.new ⟨1, "alice", "secret"⟩).users.lookup 1 =
      some ⟨1, "alice", "secret"⟩ :=
  C2_amended_register_stores_hash _ Database.new ⟨1, "alice", "secret"⟩ _ rfl

/-- C3: the login state machine of both files.  When the username lookup finds
nothing the result is the 401 unauthorized rejection; when a user is found and
the password verifies (string equality in `code_template.rs`, bcrypt
verification in `main.rs`) the result is acceptance; when it does not verify
the result is the 400 bad-request rejection; and the two rejection kinds are
distinguishable responses. -/
theorem C3_login_cases (db : Database) (req stored : User)
    (bverify : String → String → Except String Bool) :
    (db.get_user_by_name req.username = none →
      login_template db req = HttpResponse.unauthorized "" ∧
      login_hardened bverify db req =
        Except.ok (HttpResponse.unauthorized "Invalid username or password")) ∧
    (db.get_user_by_name req.username = some stored →
      (stored.password = req.password →
        login_template db req = HttpResponse.ok "Login successful!") ∧
      (stored.password ≠ req.password →
        login_template db req =
          HttpResponse.badRequest "Invalid username or password") ∧
      (bverify req.password stored.password = Except.ok true →
        login_hardened bverify db req =
          Except.ok (HttpResponse.ok "Login successful")) ∧
      (bverify req.password stored.password = Except.ok false →
        login_hardened bverify db req =
          Except.ok (HttpResponse.badRequest "Invalid username and/or password"))) ∧
    (∀ b1 b2, HttpResponse.unauthorized b1 ≠ HttpResponse.badRequest b2) := by
  refine ⟨?_, ?_, ?_⟩
  · intro hnone
    constructor
    · simp [login_template, hnone]
    · simp [login_hardened, hnone]
  · intro hsome
    refine ⟨?_, ?_, ?_, ?_⟩
    · intro heq
      simp [login_template, hsome, heq]
    · intro hne
      simp [login_template, hsome, hne]
    · intro hv
      simp [login_hardened, hsome, hv]
    · intro hv
      simp [login_hardened, hsome, hv]
  · intro b1 b2
    exact fun h => HttpResponse.noConfusion h

/-- Witness for C3: logging in with an unknown username against a store
holding only the user alice is rejected as unauthorized. -/
theorem C3_login_cases_witness :
    login_template (Database.new.insert_user ⟨1, "alice", "pw"⟩) ⟨0, "bob", "pw"⟩ =
      HttpResponse.unauthorized "" :=
  ((C3_login_cases (Database.new.insert_user ⟨1, "alice", "pw"⟩) ⟨0, "bob", "pw"⟩
    ⟨1, "alice", "pw"⟩ (fun _ _ => Except.ok true)).1 (by decide)).1

/-- C4: when the username lookup finds a user and bcrypt verification of the
stored password field returns its error case (as it does on a malformed
stored hash), the `login` handler of `main.rs` propagates the
`.expect("Failed to verify password")` panic instead of answering with an
invalid-credentials rejection, contradicting the claim. -/
theorem C4_verify_error_is_panic (bverify : String → String → Except String Bool)
    (db : Database) (req stored : User) (e : String)
    (hfound : db.get_user_by_name req.username = some stored)
    (herr : bverify req.password stored.password = Except.error e) :
    login_hardened bverify db req = Except.error "Failed to verify password" := by
  simp [login_hardened, hfound, herr]

/-- Witness for C4: a stored record whose password field is not a bcrypt hash
makes the verification parameter return an error, and login panics. -/
theorem C4_verify_error_is_panic_witness :
    login_hardened (fun _ _ => Except.error "InvalidHash")
      (Database.new.insert_user ⟨1, "alice", "not-a-bcrypt-hash"⟩)
      ⟨1, "alice", "secret"⟩ = Except.error "Failed to verify password" :=
  C4_verify_error_is_panic _ _ _ ⟨1, "alice", "not-a-bcrypt-hash"⟩ "InvalidHash"
    (by decide) rfl

/-- C5: inserting an entity and then reading its id returns exactly the
inserted value, for every store state and entity. -/
theorem C5_insert_then_get (db : Database) (e : Task) :
    (db.insert e).get e.id = some e := by
  simp [Database.insert, Database.get, Table.lookup_insertKV]

/-- C6: `update` has identical mechanics to `insert` (the two method bodies
are the same full overwrite by id), and the written value is visible to a
subsequent get unconditionally, so an absent id is silently created and there
is no must-already-exist check. -/
theorem C6_update_is_insert (db : Database) (e : Task) :
    db.update e = db.insert e ∧ (db.update e).get e.id = some e :=
  ⟨rfl, by simp [Database.update, Database.get, Table.lookup_insertKV]⟩

/-- C7: deleting an id removes its association, so a subsequent get returns
absence; and deleting an id that is absent leaves the store exactly unchanged
(the operation is total, so no error is signalled).  The hypothesis is the
`HashMap` distinct-keys representation invariant. -/
theorem C7_delete (db : Database) (id : Nat) (hnd : db.tasks.keysNodup) :
    (db.delete id).get id = none ∧ (db.get id = none → db.delete id = db) := by
  constructor
  · exact Table.lookup_eraseKey_self db.tasks id hnd
  · intro h
    have he := Table.eraseKey_of_lookup_eq_none db.tasks id h
    simp [Database.delete, he]

/-- Witness for C7 on a concrete one-task store. -/
theorem C7_delete_witness :
    ((⟨[(1, ⟨1, "a", true⟩)], []⟩ : Database).delete 1).get 1 = none ∧
    ((⟨[(1, ⟨1, "a", true⟩)], []⟩ : Database).get 1 = none →
      (⟨[(1, ⟨1, "a", true⟩)], []⟩ : Database).delete 1 =
        ⟨[(1, ⟨1, "a", true⟩)], []⟩) :=
  C7_delete _ 1 (by decide)

/-- C8: whenever startup loading fails (missing file, or a document that does
not deserialize), `main` continues with `Database::new()`, whose two tables
are both empty; startup never fails. -/
theorem C8_startup_fallback (fileContent : Option Json)
    (h : fileContent = none ∨
      ∃ j, fileContent = some j ∧ Database.load_from_file j = none) :
    mainStartupDb fileContent = Database.new ∧
    Database.new.tasks = [] ∧ Database.new.users = [] := by
  refine ⟨?_, rfl, rfl⟩
  rcases h with h | ⟨j, rfl, hj⟩
  · subst h
    rfl
  · simp [mainStartupDb, hj]

/-- Witness for C8 on a malformed document (a bare string). -/
theorem C8_startup_fallback_witness :
    mainStartupDb (some (Json.str "garbage")) = Database.new ∧
    Database.new.tasks = [] ∧ Database.new.users = [] :=
  C8_startup_fallback _ (Or.inr ⟨Json.str "garbage", rfl, rfl⟩)

/-- C9 counterexample: registering the id 1 twice overwrites the first user
record, so the record that was present before the second registration is not
present unchanged after it, refuting the claim that no operation changes an
existing user record. -/
theorem C9_counterexample :
    (applyOp (applyOp Database.new (Op.registerUser ⟨1, "alice", "hash1"⟩))
        (Op.registerUser ⟨1, "bob", "hash2"⟩)).users.lookup 1 ≠
      (applyOp Database.new (Op.registerUser ⟨1, "alice", "hash1"⟩)).users.lookup 1 := by
  decide

/-- C9 amended: user records are never deleted (every id present in the user
table before an operation is still present after it), the entity-table
operations leave the user table exactly unchanged, and the only operation
that changes an existing user record is a registration with that same id,
which overwrites it: a registration with any other id leaves the record
unchanged. -/
theorem C9_amended_users_persist (db : Database) (op : Op) (i : Nat)
    (hpresent : (db.users.lookup i).isSome = true) :
    ((applyOp db op).users.lookup i).isSome = true ∧
    (∀ t, op = Op.createTask t → (applyOp db op).users = db.users) ∧
    (∀ t, op = Op.updateTask t → (applyOp db op).users = db.users) ∧
    (∀ j, op = Op.deleteTask j → (applyOp db op).users = db.users) ∧
    (∀ u, op = Op.registerUser u → i ≠ u.id →
      (applyOp db op).users.lookup i = db.users.lookup i) := by
  cases op with
  | createTask t =>
    exact ⟨hpresent, fun _ _ => rfl, fun _ h => Op.noConfusion h,
      fun _ h => Op.noConfusion h, fun _ h => Op.noConfusion h⟩
  | updateTask t =>
    exact ⟨hpresent, fun _ h => Op.noConfusion h, fun _ _ => rfl,
      fun _ h => Op.noConfusion h, fun _ h => Op.noConfusion h⟩
  | deleteTask j =>
    exact ⟨hpresent, fun _ h => Op.noConfusion h, fun _ h => Op.noConfusion h,
      fun _ _ => rfl, fun _ h => Op.noConfusion h⟩
  | registerUser u =>
    refine ⟨?_, fun _ h => Op.noConfusion h, fun _ h => Op.noConfusion h,
      fun _ h => Op.noConfusion h, ?_⟩
    · simp only [applyOp, Database.insert_user, Table.lookup_insertKV]
      by_cases hik : u.id = i
      · simp [hik]
      · simpa [hik] using hpresent
    · intro u2 heq hne
      cases heq
      simp only [applyOp, Database.insert_user, Table.lookup_insertKV]
      have : ¬ u.id = i := fun he => hne he.symm
      simp [this]

/-- Witness for C9 amended: after registering bob with id 2, the record of
alice at id 1 is still present. -/
theorem C9_amended_users_persist_witness :
    ((applyOp ⟨[], [(1, ⟨1, "alice", "h"⟩)]⟩
      (Op.registerUser ⟨2, "bob", "h2"⟩)).users.lookup 1).isSome = true :=
  (C9_amended_users_persist ⟨[], [(1, ⟨1, "alice", "h"⟩)]⟩
    (Op.registerUser ⟨2, "bob", "h2"⟩) 1 (by decide)).1

/-- C10: the cross-table frame property.  Each entity-table operation leaves
the user table exactly unchanged, and `insert_user` leaves the entity table
exactly unchanged, for every store state and every argument. -/
theorem C10_frame (db : Database) (t : Task) (i : Nat) (u : User) :
    (db.insert t).users = db.users ∧
    (db.update t).users = db.users ∧
    (db.delete i).users = db.users ∧
    (db.insert_user u).tasks = db.tasks :=
  ⟨rfl, rfl, rfl, rfl⟩

end WebTemplate
